import Mathlib

/-!
Shallow embedding of the mask-authoring canvas of the watermark-removal app
(`src/components/LoadingOverlay.tsx`, component `CanvasEditor`, together with
the export trigger wiring in `src/App.tsx` and the types in `src/types.ts`).

JS numbers are modelled by `ℚ` (all the arithmetic the component performs is
addition, subtraction, multiplication, division and `Math.min`, on values that
are exact in practice).  One divergence is noted where it matters: JS division
by zero yields `Infinity`/`NaN` while `ℚ` division by zero yields `0`; the
theorems touching that case depend only on whether a value is produced at all,
never on the junk value itself.
-/

namespace Huang

/-- Type `Point` from `src/types.ts`: `{x, y}` in image-pixel space. -/
structure Point where
  x : ℚ
  y : ℚ
deriving Repr, DecidableEq

/-- One element of the `paths` state of `CanvasEditor`:
`{points: Point[], size: number}` (a completed stroke). -/
structure Path where
  points : List Point
  size : ℚ
deriving Repr, DecidableEq

/-- Type `ImageDimensions` from `src/types.ts`, as captured from `img.width` /
`img.height` on load (non-negative integers). -/
structure ImageDimensions where
  width : ℕ
  height : ℕ
deriving Repr, DecidableEq

/-- The result of `canvas.getBoundingClientRect()`: the on-screen box of the
canvas element. -/
structure Rect where
  left : ℚ
  top : ℚ
  width : ℚ
  height : ℚ
deriving Repr, DecidableEq

/-- A pointer event as `getCoordinates` distinguishes them: a mouse event
carries `clientX`/`clientY` directly; a touch event carries its `touches`
list (each touch a `clientX`/`clientY` pair). -/
inductive PointerEvent where
  | mouse (clientX clientY : ℚ)
  | touch (touches : List (ℚ × ℚ))
deriving Repr, DecidableEq

/-- Function `getCoordinates` (LoadingOverlay.tsx lines 80-100).  `canvas` is
`canvasRef.current` together with its internal buffer size
(`canvas.width`/`canvas.height`, which the render effect sets to the native
`imgDimensions`); `none` models a null ref.  Returns `null` (`none`) only for
a null ref or an empty `touches` list; otherwise it computes
`x = (clientX - rect.left) * (canvas.width / rect.width)` and the analogous
`y` with NO guard on `rect.width`/`rect.height` being zero (in JS a zero
divisor produces `Infinity`/`NaN`, here `ℚ` division by zero produces `0`;
either way a point is returned, not `none`). -/
def getCoordinates (canvas : Option (ℕ × ℕ)) (rect : Rect) (e : PointerEvent) :
    Option Point :=
  match canvas with
  | none => none
  | some (w, h) =>
    match e with
    | .mouse clientX clientY =>
      some ⟨(clientX - rect.left) * ((w : ℚ) / rect.width),
            (clientY - rect.top) * ((h : ℚ) / rect.height)⟩
    | .touch [] => none
    | .touch ((clientX, clientY) :: _) =>
      some ⟨(clientX - rect.left) * ((w : ℚ) / rect.width),
            (clientY - rect.top) * ((h : ℚ) / rect.height)⟩

/-- The drawing-related component state of `CanvasEditor`:
`isDrawing`, `paths` (completed strokes) and `currentPath` (the in-progress
stroke). -/
structure EditorState where
  isDrawing : Bool
  paths : List Path
  currentPath : List Point
deriving Repr, DecidableEq

/-- The state of a freshly mounted `CanvasEditor` (and of the model right
after an image load). -/
def initialState : EditorState := ⟨false, [], []⟩

/-- Handler `startDrawing` (lines 102-110).  `coord` is the result of
`getCoordinates` for the event.  Returns the updated state: a no-op when
`isProcessing` is true or the mapper returned `null`; otherwise enters the
drawing state with `currentPath = [point]`. -/
def startDrawing (isProcessing : Bool) (coord : Option Point)
    (s : EditorState) : EditorState :=
  if isProcessing then s
  else
    match coord with
    | some point => { s with isDrawing := true, currentPath := [point] }
    | none => s

/-- Handler `draw` (lines 112-119): appends the mapped point to `currentPath` when a
gesture is in progress and not processing. -/
def draw (isProcessing : Bool) (coord : Option Point) (s : EditorState) :
    EditorState :=
  if !s.isDrawing || isProcessing then s
  else
    match coord with
    | some point => { s with currentPath := s.currentPath ++ [point] }
    | none => s

/-- Handler `stopDrawing` (lines 121-127).  `brushSize` is the value of the
`brushSize` prop in the render closure from which the handler fires, i.e. the
brush-size setting AT THE MOMENT THE GESTURE ENDS.  If a gesture is in
progress with at least one point, the in-progress stroke is promoted to
`paths` with that size; `isDrawing` is cleared in every case. -/
def stopDrawing (brushSize : ℚ) (s : EditorState) : EditorState :=
  if s.isDrawing && s.currentPath.length > 0 then
    { isDrawing := false,
      paths := s.paths ++ [⟨s.currentPath, brushSize⟩],
      currentPath := [] }
  else
    { s with isDrawing := false }

/-- The undo button handler (line 268): `setPaths(p => p.slice(0, -1))`.
`slice(0, -1)` drops the last element and is the identity on `[]`. -/
def undoLast (s : EditorState) : EditorState :=
  { s with paths := s.paths.dropLast }

/-- The clear button handler (line 276): `setPaths([]); setCurrentPath([])`. -/
def clearAll (s : EditorState) : EditorState :=
  { s with paths := [], currentPath := [] }

/-- Function `fitImageToContainer` (lines 57-67), for a mounted container
(`containerRef.current` non-null; the null branch returns without touching
the scale).  `clientHeight || window.innerHeight * 0.6` falls back exactly
when `clientHeight` is `0` (it is a non-negative integer, so `0` is its only
falsy value); `clientWidth` has no fallback.  Returns the new scale
`min(containerW / imgW, containerH / imgH, 1)`. -/
def fitImageToContainer (clientWidth clientHeight innerHeight imgW imgH : ℚ) :
    ℚ :=
  let containerW := clientWidth
  let containerH := if clientHeight = 0 then innerHeight * (3 / 5) else clientHeight
  min (min (containerW / imgW) (containerH / imgH)) 1

/-- One 2d-context command issued by `generateMask` while building the mask
raster.  The raster is modelled as the command trace together with its
dimensions, which is all the claims inspect. -/
inductive MaskOp where
  | fillRectBlack (w h : ℕ)
  | beginPath
  | setLineWidth (w : ℚ)
  | moveTo (p : Point)
  | lineTo (p : Point)
  | stroke
deriving Repr, DecidableEq

/-- The mask raster handed to `onMaskReady`: the off-screen canvas dimensions
(`canvas.width = imgDimensions.width`, `canvas.height = imgDimensions.height`)
plus the drawing commands executed on it. -/
structure Mask where
  width : ℕ
  height : ℕ
  ops : List MaskOp
deriving Repr, DecidableEq

/-- The per-stroke body of the `paths.forEach` in `generateMask`
(lines 206-214).  The source accesses `path.points[0]` without a guard: on an
empty `points` list the access yields `undefined` and `.x` throws a
`TypeError`, modelled by `none`. -/
def maskStrokeOps (path : Path) : Option (List MaskOp) :=
  match path.points with
  | [] => none
  | p0 :: rest =>
    some ([MaskOp.beginPath, MaskOp.setLineWidth path.size, MaskOp.moveTo p0]
      ++ rest.map MaskOp.lineTo ++ [MaskOp.stroke])

/-- The full `paths.forEach` loop: the concatenated command trace, `none` if
any stroke has no points (the thrown `TypeError` aborts the whole export and
`onMaskReady` is never called). -/
def maskOpsForPaths : List Path → Option (List MaskOp)
  | [] => some []
  | p :: ps =>
    match maskStrokeOps p, maskOpsForPaths ps with
    | some ops, some rest => some (ops ++ rest)
    | _, _ => none

/-- Function `generateMask` (lines 190-219): allocate a canvas at `imgDimensions`,
fill it black, stroke every completed path in white, serialize.  `getContext`
on a fresh off-screen 2d canvas succeeds in a browser, so the `!ctx` early
return is not modelled as a separate outcome.  `none` models the unguarded
`path.points[0]` access throwing. -/
def generateMask (dims : ImageDimensions) (paths : List Path) : Option Mask :=
  (maskOpsForPaths paths).map fun ops =>
    { width := dims.width,
      height := dims.height,
      ops := MaskOp.fillRectBlack dims.width dims.height :: ops }

/-- What one run of the export effect (lines 187-223) does. -/
inductive EffectOutcome where
  | skipped
  | callback (m : Mask)
  | error
deriving Repr, DecidableEq

/-- One run of the export effect: return early when `triggerExport === 0`
(the initial sentinel set in `App.tsx`), otherwise run `generateMask` and
invoke `onMaskReady` with the result. -/
def exportEffect (triggerExport : ℕ) (dims : ImageDimensions)
    (paths : List Path) : EffectOutcome :=
  if triggerExport = 0 then .skipped
  else
    match generateMask dims paths with
    | some m => .callback m
    | none => .error

/-- Outcomes of `exportEffect` over a run of the component: the effect has
dependency list `[triggerExport]`, so it runs once on mount and once per
change of the counter; `triggerValues` is the sequence of counter values the
effect observes (mount value first, then one entry per change). -/
def effectOutcomes (dims : ImageDimensions) (paths : List Path)
    (triggerValues : List ℕ) : List EffectOutcome :=
  triggerValues.map fun t => exportEffect t dims paths

/-- Number of `onMaskReady` invocations over a run of the component. -/
def callbackCount (dims : ImageDimensions) (paths : List Path)
    (triggerValues : List ℕ) : ℕ :=
  (effectOutcomes dims paths triggerValues).countP fun r =>
    match r with
    | .callback _ => true
    | _ => false

/-- The full editing-relevant state of a mounted `CanvasEditor`, including
the display scale, for stating that mask export does not depend on it. -/
structure CanvasEditorState where
  editor : EditorState
  imgDimensions : ImageDimensions
  scale : ℚ
deriving Repr, DecidableEq

/-- Function `generateMask` as invoked from the export effect on the component state:
it reads only `imgDimensions` and `paths`, never `scale`. -/
def generateMaskFromState (st : CanvasEditorState) : Option Mask :=
  generateMask st.imgDimensions st.editor.paths

/-- A user-interface event hitting the drawing state machine.  The
`processing` flag and the mapped coordinate (for `start`/`move`) and the
current `brushSize` prop (for `stop`) are taken as ambient inputs carried on
the event, since they are props external to the component. -/
inductive Event where
  | start (processing : Bool) (coord : Option Point)
  | move (processing : Bool) (coord : Option Point)
  | stop (brush : ℚ)
  | undo
  | clear
deriving Repr, DecidableEq

/-- Dispatch one event to its handler. -/
def applyEvent (e : Event) (s : EditorState) : EditorState :=
  match e with
  | .start processing coord => startDrawing processing coord s
  | .move processing coord => draw processing coord s
  | .stop brush => stopDrawing brush s
  | .undo => undoLast s
  | .clear => clearAll s

/-- Run a list of events from the freshly mounted state. -/
def run (evs : List Event) : EditorState :=
  evs.foldl (fun s e => applyEvent e s) initialState

/-- One complete drawing gesture outside of processing mode:
pointer-down (mapped to `startCoord`), a sequence of pointer-moves (each
mapped to an entry of `moves`), then pointer-up with the brush-size prop
equal to `brush` at that moment. -/
structure Gesture where
  startCoord : Option Point
  moves : List (Option Point)
  brush : ℚ
deriving Repr, DecidableEq

/-- Apply one complete gesture to the state. -/
def runGesture (g : Gesture) (s : EditorState) : EditorState :=
  stopDrawing g.brush
    (g.moves.foldl (fun st c => draw false c st) (startDrawing false g.startCoord s))

/-- Apply a sequence of complete gestures. -/
def runGestures (gs : List Gesture) (s : EditorState) : EditorState :=
  gs.foldl (fun st g => runGesture g st) s

/-! ## Basic facts about the handlers -/

/-- Handler `startDrawing` never touches the completed-stroke list. -/
theorem startDrawing_paths (isProcessing : Bool) (coord : Option Point)
    (s : EditorState) : (startDrawing isProcessing coord s).paths = s.paths := by
  unfold startDrawing
  split
  · rfl
  · cases coord <;> rfl

/-- Handler `draw` never touches the completed-stroke list. -/
theorem draw_paths (isProcessing : Bool) (coord : Option Point)
    (s : EditorState) : (draw isProcessing coord s).paths = s.paths := by
  unfold draw
  split
  · rfl
  · cases coord <;> rfl

/-! ## C8 -/

/-- Claim C8: calling `startDrawing` while the processing flag is true is a
silent no-op: the whole drawing state (completed strokes, in-progress stroke,
drawing flag) is returned unchanged, for every incoming coordinate. -/
theorem beginStroke_noop_while_processing (coord : Option Point)
    (s : EditorState) : startDrawing true coord s = s := by
  unfold startDrawing
  simp

/-! ## C5 -/

/-- Claim C5 is violated by the code: with a laid-out-to-zero canvas box
(`rect.width = rect.height = 0`), `getCoordinates` does NOT signal "not
ready" (`none`); it returns a point (in JS the division by zero makes its
coordinates `Infinity`/`NaN`; in this `ℚ` model they collapse to `0` — either
way a point is produced), and `startDrawing` then records that junk point as
the start of a stroke. -/
theorem zero_size_canvas_still_records_point :
    (getCoordinates (some (800, 600)) ⟨0, 0, 0, 0⟩
        (PointerEvent.mouse 10 10)).isSome = true ∧
    (startDrawing false
        (getCoordinates (some (800, 600)) ⟨0, 0, 0, 0⟩
          (PointerEvent.mouse 10 10))
        initialState).currentPath.length = 1 := by
  constructor <;> rfl

/-! ## C4 -/

/-- Claim C4 is violated by the code: the export effect only early-returns on
`triggerExport === 0`.  With the image not yet loaded
(`imgDimensions = {width: 0, height: 0}`) and a first trigger increment, the
effect still runs `generateMask`, produces a 0×0 raster, and invokes
`onMaskReady` with it instead of skipping the export. -/
theorem export_not_skipped_when_dims_unknown :
    exportEffect 1 ⟨0, 0⟩ [] =
      EffectOutcome.callback ⟨0, 0, [MaskOp.fillRectBlack 0 0]⟩ := by
  rfl

/-! ## C3 -/

/-- Claim C3 counterexample: a gesture during which the external brush-size
setting changes.  The brush slider reads 30 when the pointer goes down
(`startDrawing` does not read the brush size at all) and 50 when the pointer
goes up; the completed stroke is recorded with width 50 — the value at
gesture END — not the gesture-start value 30. -/
theorem brush_width_start_sample_counterexample :
    (run [Event.start false (some ⟨1, 1⟩), Event.stop 50]).paths.map
        Path.size = [50] ∧
    (run [Event.start false (some ⟨1, 1⟩), Event.stop 50]).paths.map
        Path.size ≠ [30] := by
  constructor
  · rfl
  · decide

/-- Claim C3 amended: the width of the completed stroke appended at gesture
end equals the brush-size setting sampled at gesture END (`stopDrawing`
time); `startDrawing` does not sample the brush size, so a change of the
setting during the gesture is reflected in the completed stroke. -/
theorem brush_width_sampled_at_gesture_end (b : ℚ) (s : EditorState)
    (hd : s.isDrawing = true) (hne : s.currentPath ≠ []) :
    (stopDrawing b s).paths = s.paths ++ [⟨s.currentPath, b⟩] := by
  unfold stopDrawing
  have : (s.isDrawing && decide (s.currentPath.length > 0)) = true := by
    simp [hd, List.length_pos.mpr hne]
  simp [this]

/-- Witness for the amended C3 at a concrete mid-gesture state. -/
theorem brush_width_sampled_at_gesture_end_witness :
    (stopDrawing 50 ⟨true, [], [⟨1, 1⟩]⟩).paths =
      ([] : List Path) ++ [⟨[⟨1, 1⟩], 50⟩] :=
  brush_width_sampled_at_gesture_end 50 ⟨true, [], [⟨1, 1⟩]⟩ rfl (by decide)

/-! ## C1 -/

/-- Claim C1: whenever the export effect produces a mask raster, its
dimensions are exactly the native Image Dimensions stored in the component
state, and the raster is entirely independent of the Display Scale (replacing
the scale by any value yields the very same mask). -/
theorem mask_raster_has_native_dimensions (st : CanvasEditorState) (m : Mask)
    (h : generateMaskFromState st = some m) :
    m.width = st.imgDimensions.width ∧ m.height = st.imgDimensions.height ∧
    ∀ s : ℚ, generateMaskFromState { st with scale := s } = some m := by
  refine ⟨?_, ?_, fun s => h⟩ <;>
  · unfold generateMaskFromState generateMask at h
    obtain ⟨ops, -, rfl⟩ := Option.map_eq_some'.mp h
    rfl

/-- Witness for C1: an 800×600 image at display scale 1/2 with no strokes. -/
theorem mask_raster_has_native_dimensions_witness :
    (⟨800, 600, [MaskOp.fillRectBlack 800 600]⟩ : Mask).width =
      (⟨800, 600⟩ : ImageDimensions).width ∧
    (⟨800, 600, [MaskOp.fillRectBlack 800 600]⟩ : Mask).height =
      (⟨800, 600⟩ : ImageDimensions).height ∧
    ∀ s : ℚ,
      generateMaskFromState ⟨initialState, ⟨800, 600⟩, s⟩ =
        some ⟨800, 600, [MaskOp.fillRectBlack 800 600]⟩ :=
  mask_raster_has_native_dimensions ⟨initialState, ⟨800, 600⟩, 1 / 2⟩
    ⟨800, 600, [MaskOp.fillRectBlack 800 600]⟩ rfl

/-! ## C2 -/

/-- Claim C2: the Fit-to-Container Scaler returns
`min(containerW / imgW, containerH / imgH, 1)` (with the measured container
height when it is nonzero), so the scale never exceeds 1; and when the
measured container height is zero it substitutes `0.6 * window.innerHeight`,
so that, for a positive container width and viewport height, the resulting
scale is strictly positive. -/
theorem fit_scale_min_and_fallback (cw ch vh iw ih : ℚ)
    (hiw : 0 < iw) (hih : 0 < ih) :
    fitImageToContainer cw ch vh iw ih ≤ 1 ∧
    (ch ≠ 0 →
      fitImageToContainer cw ch vh iw ih = min (min (cw / iw) (ch / ih)) 1) ∧
    (ch = 0 →
      fitImageToContainer cw ch vh iw ih =
        min (min (cw / iw) (vh * (3 / 5) / ih)) 1) ∧
    (ch = 0 → 0 < cw → 0 < vh → 0 < fitImageToContainer cw ch vh iw ih) := by
  refine ⟨min_le_right _ _,
    fun h => by simp [fitImageToContainer, h],
    fun h => by simp [fitImageToContainer, h],
    fun h hcw hvh => ?_⟩
  have h35 : (0 : ℚ) < 3 / 5 := by norm_num
  simp only [fitImageToContainer, if_pos h]
  exact lt_min (lt_min (div_pos hcw hiw) (div_pos (mul_pos hvh h35) hih))
    one_pos

/-- Witness for C2: an 800×600 image in a container measured 400 wide and 0
tall with a 1000-pixel viewport. -/
theorem fit_scale_min_and_fallback_witness :
    fitImageToContainer 400 0 1000 800 600 ≤ 1 ∧
    ((0 : ℚ) ≠ 0 →
      fitImageToContainer 400 0 1000 800 600 =
        min (min ((400 : ℚ) / 800) ((0 : ℚ) / 600)) 1) ∧
    ((0 : ℚ) = 0 →
      fitImageToContainer 400 0 1000 800 600 =
        min (min ((400 : ℚ) / 800) ((1000 : ℚ) * (3 / 5) / 600)) 1) ∧
    ((0 : ℚ) = 0 → (0 : ℚ) < 400 → (0 : ℚ) < 1000 →
      0 < fitImageToContainer 400 0 1000 800 600) :=
  fit_scale_min_and_fallback 400 0 1000 800 600 (by norm_num) (by norm_num)

/-! ## C6 -/

/-- Claim C6: for a mouse event at `(cx, cy)` over a canvas whose on-screen
box is the native buffer size scaled by the display scale `s`, the mapper
returns exactly `imageX = (clientX - boxLeft) * (nativeWidth / boxDisplayWidth)`
(and analogously for Y), and re-scaling the recorded point by `s` recovers
the original click position in display space exactly — in particular to
within one pixel. -/
theorem coordinate_mapper_affine_roundtrip (w h : ℕ) (rect : Rect)
    (cx cy s : ℚ) (hw : 0 < (w : ℚ)) (hh : 0 < (h : ℚ)) (hs : 0 < s)
    (hrw : rect.width = s * w) (hrh : rect.height = s * h) :
    ∃ p : Point,
      getCoordinates (some (w, h)) rect (PointerEvent.mouse cx cy) = some p ∧
      p.x = (cx - rect.left) * ((w : ℚ) / rect.width) ∧
      p.y = (cy - rect.top) * ((h : ℚ) / rect.height) ∧
      rect.left + p.x * s = cx ∧ rect.top + p.y * s = cy ∧
      |rect.left + p.x * s - cx| ≤ 1 ∧ |rect.top + p.y * s - cy| ≤ 1 := by
  have hwne : (w : ℚ) ≠ 0 := ne_of_gt hw
  have hhne : (h : ℚ) ≠ 0 := ne_of_gt hh
  have hsne : s ≠ 0 := ne_of_gt hs
  refine ⟨_, rfl, rfl, rfl, ?_, ?_, ?_, ?_⟩
  · show rect.left + (cx - rect.left) * ((w : ℚ) / rect.width) * s = cx
    rw [hrw]
    field_simp
    ring
  · show rect.top + (cy - rect.top) * ((h : ℚ) / rect.height) * s = cy
    rw [hrh]
    field_simp
    ring
  · show |rect.left + (cx - rect.left) * ((w : ℚ) / rect.width) * s - cx| ≤ 1
    rw [hrw]
    have : rect.left + (cx - rect.left) * ((w : ℚ) / (s * w)) * s - cx = 0 := by
      field_simp
      ring
    rw [this]
    norm_num
  · show |rect.top + (cy - rect.top) * ((h : ℚ) / rect.height) * s - cy| ≤ 1
    rw [hrh]
    have : rect.top + (cy - rect.top) * ((h : ℚ) / (s * h)) * s - cy = 0 := by
      field_simp
      ring
    rw [this]
    norm_num

/-- Witness for C6: an 800×600 canvas shown at scale 1/2 in a box at
(100, 50), clicked at (200, 150). -/
theorem coordinate_mapper_affine_roundtrip_witness :
    ∃ p : Point,
      getCoordinates (some (800, 600)) ⟨100, 50, 400, 300⟩
          (PointerEvent.mouse 200 150) = some p ∧
      p.x = ((200 : ℚ) - 100) * ((800 : ℚ) / 400) ∧
      p.y = ((150 : ℚ) - 50) * ((600 : ℚ) / 300) ∧
      (100 : ℚ) + p.x * (1 / 2) = 200 ∧ (50 : ℚ) + p.y * (1 / 2) = 150 ∧
      |(100 : ℚ) + p.x * (1 / 2) - 200| ≤ 1 ∧
      |(50 : ℚ) + p.y * (1 / 2) - 150| ≤ 1 :=
  coordinate_mapper_affine_roundtrip 800 600 ⟨100, 50, 400, 300⟩ 200 150
    (1 / 2) (by norm_num) (by norm_num) (by norm_num) (by norm_num)
    (by norm_num)

/-! ## C7 -/

/-- The `forEach` over the completed strokes succeeds whenever every
completed stroke has at least one point. -/
theorem maskOpsForPaths_isSome (paths : List Path)
    (h : ∀ p ∈ paths, p.points ≠ []) : (maskOpsForPaths paths).isSome := by
  induction paths with
  | nil => rfl
  | cons p ps ih =>
    have hp : p.points ≠ [] := h p (List.mem_cons_self p ps)
    have hps := ih fun q hq => h q (List.mem_cons_of_mem p hq)
    obtain ⟨rest, hrest⟩ := Option.isSome_iff_exists.mp hps
    cases hpp : p.points with
    | nil => exact absurd hpp hp
    | cons p0 tl =>
      simp [maskOpsForPaths, maskStrokeOps, hpp, hrest]

/-- Function `generateMask` succeeds whenever every completed stroke has at least one
point. -/
theorem generateMask_isSome (dims : ImageDimensions) (paths : List Path)
    (h : ∀ p ∈ paths, p.points ≠ []) : (generateMask dims paths).isSome := by
  unfold generateMask
  obtain ⟨ops, hops⟩ := Option.isSome_iff_exists.mp (maskOpsForPaths_isSome paths h)
  simp [hops]

/-- Counting with pointwise-equal predicates gives equal counts. -/
theorem countP_eq_of_forall {α : Type} (p q : α → Bool) (l : List α)
    (h : ∀ a ∈ l, p a = q a) : l.countP p = l.countP q := by
  induction l with
  | nil => rfl
  | cons a as ih =>
    rw [List.countP_cons, List.countP_cons, h a (List.mem_cons_self a as),
      ih fun b hb => h b (List.mem_cons_of_mem a hb)]

/-- Among the counter values `0, 1, ..., n` exactly `n` are nonzero. -/
theorem countP_nonzero_range (n : ℕ) :
    (List.range (n + 1)).countP (fun t => !(t == 0)) = n := by
  induction n with
  | zero => rfl
  | succ k ih =>
    rw [List.range_succ, List.countP_append, ih]
    simp

/-- Claim C7: over a component run in which the export counter starts at its
initial sentinel 0 and is incremented n times (counter values
`0, 1, ..., n`, the effect running once per value), the effect at the
sentinel produces no export, and the mask-ready callback is invoked exactly
n times — once per increment — provided every completed stroke is
well-formed (nonempty, the reachable-state invariant). -/
theorem export_once_per_counter_increment (dims : ImageDimensions)
    (paths : List Path) (n : ℕ) (h : ∀ p ∈ paths, p.points ≠ []) :
    exportEffect 0 dims paths = EffectOutcome.skipped ∧
    callbackCount dims paths (List.range (n + 1)) = n := by
  obtain ⟨m, hm⟩ :=
    Option.isSome_iff_exists.mp (generateMask_isSome dims paths h)
  refine ⟨rfl, ?_⟩
  have hstep : ∀ t : ℕ,
      exportEffect t dims paths =
        if t = 0 then EffectOutcome.skipped else EffectOutcome.callback m := by
    intro t
    unfold exportEffect
    split
    · rfl
    · rw [hm]
  unfold callbackCount effectOutcomes
  rw [List.countP_map]
  refine Eq.trans (countP_eq_of_forall _ _ _ ?_) (countP_nonzero_range n)
  intro t _
  simp only [Function.comp_apply, hstep t]
  by_cases ht : t = 0 <;> simp [ht]

/-- Witness for C7: a 4×3 image with one single-point stroke and two
increments of the export counter. -/
theorem export_once_per_counter_increment_witness :
    exportEffect 0 ⟨4, 3⟩ [⟨[⟨1, 1⟩], 5⟩] = EffectOutcome.skipped ∧
    callbackCount ⟨4, 3⟩ [⟨[⟨1, 1⟩], 5⟩] (List.range 3) = 2 :=
  export_once_per_counter_increment ⟨4, 3⟩ [⟨[⟨1, 1⟩], 5⟩] 2 (by decide)

/-! ## C9 -/

/-- Unfolding `runGestures` one gesture at a time. -/
theorem runGestures_cons (g : Gesture) (gs : List Gesture) (s : EditorState) :
    runGestures (g :: gs) s = runGestures gs (runGesture g s) := rfl

/-- A run of `draw` steps keeps the gesture open, never touches the
completed strokes, and only grows the in-progress stroke. -/
theorem draws_preserve (moves : List (Option Point)) (st : EditorState)
    (hd : st.isDrawing = true) :
    (moves.foldl (fun s c => draw false c s) st).isDrawing = true ∧
    (moves.foldl (fun s c => draw false c s) st).paths = st.paths ∧
    st.currentPath.length ≤
      (moves.foldl (fun s c => draw false c s) st).currentPath.length := by
  induction moves generalizing st with
  | nil => exact ⟨hd, rfl, le_refl _⟩
  | cons c cs ih =>
    have hstep : (draw false c st).isDrawing = true ∧
        (draw false c st).paths = st.paths ∧
        st.currentPath.length ≤ (draw false c st).currentPath.length := by
      cases c <;> simp [draw, hd]
    obtain ⟨h1, h2, h3⟩ := hstep
    obtain ⟨g1, g2, g3⟩ := ih (draw false c st) h1
    exact ⟨g1, g2.trans h2, le_trans h3 g3⟩

/-- A complete gesture whose pointer-down mapped to a point appends exactly
one nonempty stroke and leaves the model idle with no in-progress stroke. -/
theorem runGesture_complete (g : Gesture) (s : EditorState) (p : Point)
    (hg : g.startCoord = some p) :
    ∃ stroke : Path,
      stroke.points ≠ [] ∧
      (runGesture g s).paths = s.paths ++ [stroke] ∧
      (runGesture g s).currentPath = [] ∧
      (runGesture g s).isDrawing = false := by
  unfold runGesture
  rw [hg]
  set s1 : EditorState :=
    { s with isDrawing := true, currentPath := [p] } with hs1
  have hstart : startDrawing false (some p) s = s1 := by
    simp [startDrawing, hs1]
  rw [hstart]
  obtain ⟨h1, h2, h3⟩ := draws_preserve g.moves s1 rfl
  set mid := g.moves.foldl (fun st c => draw false c st) s1 with hmid
  have hlen : 0 < mid.currentPath.length := lt_of_lt_of_le (by simp [hs1]) h3
  have hcond : (mid.isDrawing && decide (mid.currentPath.length > 0)) = true := by
    simp [h1, hlen]
  refine ⟨⟨mid.currentPath, g.brush⟩, ?_, ?_, ?_, ?_⟩
  · exact List.length_pos.mp hlen
  · unfold stopDrawing
    rw [if_pos hcond]
    rw [h2]
  · unfold stopDrawing
    rw [if_pos hcond]
  · unfold stopDrawing
    rw [if_pos hcond]

/-- After a sequence of complete gestures (each with a mapped pointer-down)
the completed-stroke count grows by exactly the number of gestures, and no
stroke is left in progress. -/
theorem runGestures_count (gs : List Gesture) (s : EditorState)
    (hgs : ∀ g ∈ gs, g.startCoord.isSome = true) :
    (runGestures gs s).paths.length = s.paths.length + gs.length ∧
    ((runGestures gs s).currentPath = [] ∨
      (runGestures gs s).currentPath = s.currentPath) := by
  induction gs generalizing s with
  | nil => exact ⟨rfl, Or.inr rfl⟩
  | cons g gs ih =>
    obtain ⟨p, hp⟩ :=
      Option.isSome_iff_exists.mp (hgs g (List.mem_cons_self g gs))
    obtain ⟨stroke, -, h2, h3, -⟩ := runGesture_complete g s p hp
    have hrest := ih (runGesture g s) fun g' hg' =>
      hgs g' (List.mem_cons_of_mem g hg')
    rw [runGestures_cons]
    constructor
    · rw [hrest.1, h2]
      simp [List.length_append]
      omega
    · rcases hrest.2 with h | h
      · exact Or.inl h
      · exact Or.inl (h.trans h3)

/-- Iterating `undoLast` iterates `dropLast` on the completed strokes and
touches nothing else. -/
theorem undoLast_iterate (n : ℕ) (s : EditorState) :
    (undoLast^[n] s).paths = (List.dropLast)^[n] s.paths ∧
    (undoLast^[n] s).currentPath = s.currentPath ∧
    (undoLast^[n] s).isDrawing = s.isDrawing := by
  induction n generalizing s with
  | zero => exact ⟨rfl, rfl, rfl⟩
  | succ k ih =>
    rw [Function.iterate_succ_apply, Function.iterate_succ_apply]
    exact ih (undoLast s)

/-- Dropping the last element as many times as the list is long empties it. -/
theorem dropLast_iterate_eq_nil {α : Type} (n : ℕ) (l : List α)
    (h : l.length ≤ n) : (List.dropLast)^[n] l = [] := by
  induction n generalizing l with
  | zero =>
    rw [Nat.le_zero] at h
    exact List.eq_nil_of_length_eq_zero h
  | succ k ih =>
    rw [Function.iterate_succ_apply]
    apply ih
    rw [List.length_dropLast]
    omega

/-- Claim C9: starting from the empty model, N complete gesture sequences
(each whose pointer-down maps to a point, hence each contributing at least
one point) leave exactly N completed strokes; N subsequent `undoLast` calls
return the model to empty; and `undoLast` on an empty model is a no-op. -/
theorem gesture_count_and_undo_to_empty (gs : List Gesture)
    (hgs : ∀ g ∈ gs, (Gesture.startCoord g).isSome = true) :
    (runGestures gs initialState).paths.length = gs.length ∧
    (undoLast^[gs.length] (runGestures gs initialState)).paths = [] ∧
    (undoLast^[gs.length] (runGestures gs initialState)).currentPath = [] ∧
    ∀ s : EditorState, s.paths = [] → undoLast s = s := by
  obtain ⟨hlen, hcp⟩ := runGestures_count gs initialState hgs
  have hlen0 : (runGestures gs initialState).paths.length = gs.length := by
    rw [hlen]
    simp [initialState]
  obtain ⟨u1, u2, -⟩ := undoLast_iterate gs.length (runGestures gs initialState)
  refine ⟨hlen0, ?_, ?_, ?_⟩
  · rw [u1, dropLast_iterate_eq_nil gs.length _ (le_of_eq hlen0)]
  · rw [u2]
    rcases hcp with h | h
    · exact h
    · exact h
  · intro s hs
    cases s
    simp_all [undoLast]

/-- Witness for C9: two gestures (a two-point stroke of width 30 and a
one-point stroke of width 40) then two undos. -/
theorem gesture_count_and_undo_to_empty_witness :
    (runGestures
        [⟨some ⟨1, 1⟩, [some ⟨2, 2⟩], 30⟩, ⟨some ⟨3, 3⟩, [], 40⟩]
        initialState).paths.length =
      ([⟨some ⟨1, 1⟩, [some ⟨2, 2⟩], 30⟩,
        (⟨some ⟨3, 3⟩, [], 40⟩ : Gesture)]).length ∧
    (undoLast^[([⟨some ⟨1, 1⟩, [some ⟨2, 2⟩], 30⟩,
        (⟨some ⟨3, 3⟩, [], 40⟩ : Gesture)]).length]
      (runGestures
        [⟨some ⟨1, 1⟩, [some ⟨2, 2⟩], 30⟩, ⟨some ⟨3, 3⟩, [], 40⟩]
        initialState)).paths = [] ∧
    (undoLast^[([⟨some ⟨1, 1⟩, [some ⟨2, 2⟩], 30⟩,
        (⟨some ⟨3, 3⟩, [], 40⟩ : Gesture)]).length]
      (runGestures
        [⟨some ⟨1, 1⟩, [some ⟨2, 2⟩], 30⟩, ⟨some ⟨3, 3⟩, [], 40⟩]
        initialState)).currentPath = [] ∧
    ∀ s : EditorState, s.paths = [] → undoLast s = s :=
  gesture_count_and_undo_to_empty
    [⟨some ⟨1, 1⟩, [some ⟨2, 2⟩], 30⟩, ⟨some ⟨3, 3⟩, [], 40⟩] (by decide)

/-! ## C10 -/

/-- Every handler preserves the invariant that all completed strokes hold at
least one point. -/
theorem applyEvent_preserves_nonempty (e : Event) (s : EditorState)
    (h : ∀ p ∈ s.paths, p.points ≠ []) :
    ∀ p ∈ (applyEvent e s).paths, p.points ≠ [] := by
  cases e with
  | start pr c =>
    rw [show (applyEvent (.start pr c) s).paths = s.paths from
      startDrawing_paths pr c s]
    exact h
  | move pr c =>
    rw [show (applyEvent (.move pr c) s).paths = s.paths from
      draw_paths pr c s]
    exact h
  | stop b =>
    show ∀ p ∈ (stopDrawing b s).paths, p.points ≠ []
    unfold stopDrawing
    split
    · next hc =>
      intro p hp
      rw [List.mem_append] at hp
      rcases hp with hp | hp
      · exact h p hp
      · rw [List.mem_singleton] at hp
        subst hp
        have hlen : 0 < s.currentPath.length := by
          rw [Bool.and_eq_true, decide_eq_true_eq] at hc
          exact hc.2
        exact List.length_pos.mp hlen
    · exact h
  | undo =>
    intro p hp
    exact h p (List.mem_of_mem_dropLast hp)
  | clear =>
    intro p hp
    simp [applyEvent, clearAll] at hp

/-- Claim C10: in every state reachable by user events from the freshly
mounted editor, every completed stroke contains at least one point, and the
Mask Exporter's unguarded access to the first point of each completed stroke
therefore never fails: `generateMask` succeeds on every reachable
stroke list, for any image dimensions. -/
theorem completed_strokes_nonempty_export_safe (evs : List Event)
    (dims : ImageDimensions) :
    (∀ p ∈ (run evs).paths, p.points ≠ []) ∧
    (generateMask dims (run evs).paths).isSome = true := by
  have hinv : ∀ (l : List Event) (s : EditorState),
      (∀ p ∈ s.paths, p.points ≠ []) →
      ∀ p ∈ (l.foldl (fun st e => applyEvent e st) s).paths, p.points ≠ [] := by
    intro l
    induction l with
    | nil => exact fun s hs => hs
    | cons e es ih =>
      intro s hs
      exact ih (applyEvent e s) (applyEvent_preserves_nonempty e s hs)
  have hrun : ∀ p ∈ (run evs).paths, p.points ≠ [] := by
    apply hinv evs initialState
    intro p hp
    simp [initialState] at hp
  exact ⟨hrun, generateMask_isSome dims (run evs).paths hrun⟩

end Huang
